import Mathlib

/-!
Shallow embedding of the bootstrap subsystem of `go-filecoin`
(`cmd/go-filecoin/init.go`): genesis-archive source resolution, chain
extraction from a content-addressed archive, config synthesis from CLI
options, node init-option construction, and the `init` command
orchestration.  External collaborators (block store, block decoder,
address parser, filesystem, HTTP) are modelled as explicit environments
passed to the embedded functions.
-/

deriving instance DecidableEq for Except

namespace GoFilecoin

/-- Content identifier (opaque). -/
abbrev Cid : Type := Nat

/-- Raw encoded block bytes (opaque). -/
abbrev Raw : Type := Nat

/-- Error values surfaced by the embedded code, named after the error
taxonomy of the design (fmt.Errorf values in the Go source are mapped to
their kind). -/
inductive GoErr : Type where
  | malformedArchive : GoErr
  | missingRootBlock : GoErr
  | blockNotFound : GoErr
  | decodeFailure : GoErr
  | addrParse : String → GoErr
  | presealedWithoutMiner : GoErr
  | unknownNetwork : String → GoErr
  | unsupportedScheme : String → GoErr
  | sourceUnavailable : GoErr
  | invalidSourceName : GoErr
  | keyImportFailure : GoErr
  | ioErr : String → GoErr
  deriving DecidableEq

/-- Outcome of running a piece of Go code: a returned value, a returned
error, a runtime panic (e.g. slice index out of range), or loop fuel
exhausted (the unbounded Go loop had not yet terminated). -/
inductive GoResult (α : Type) : Type where
  | ok : α → GoResult α
  | err : GoErr → GoResult α
  | panic : GoResult α
  | timeout : GoResult α
  deriving DecidableEq

/-- A chain block as used by `extractGenesisBlock`: only the `Parents`
tipset key matters here.  `block.UndefTipSet.Key()` is the empty key, so
the undefined-parents sentinel is the empty CID list. -/
structure Block : Type where
  parents : List Cid
  deriving DecidableEq

/-- External collaborators of the chain extractor: the blockstore (its
contents after `car.LoadCar` has written the archive's blocks into it)
and the block decoder `block.DecodeBlock`. -/
structure ChainEnv : Type where
  get : Cid → Option Raw
  decodeBlock : Raw → Except GoErr Block

/-- An archive handed to `car.LoadCar`: whether its bytes are malformed,
and the root CID list its header declares. -/
structure Archive : Type where
  malformed : Bool
  roots : List Cid
  deriving DecidableEq

/-- Root CID list returned by a successful archive load. -/
structure CarHeader : Type where
  roots : List Cid
  deriving DecidableEq

/-- Modelled from the spec: `car.LoadCar` (go-car library, not part of
this repository's source tree) decodes the archive into the block store
and returns the declared roots.  Per the design: malformed archive bytes
yield `MalformedArchive`; an empty or missing root list yields
`MissingRootBlock`. -/
def loadCar (a : Archive) : Except GoErr CarHeader :=
  if a.malformed then .error .malformedArchive
  else if a.roots.isEmpty then .error .missingRootBlock
  else .ok ⟨a.roots⟩

/-- The backward walk of `extractGenesisBlock`: while the current
block's `Parents` is not the undefined sentinel, fetch the first CID of
`Parents` from the blockstore, decode it, and continue from it.  Returns
the final block together with the list of CIDs fetched during the walk
(one entry per hop).  `fuel` bounds the number of loop iterations; the
Go loop is unbounded, so exhausting fuel yields `timeout`. -/
def walkBack (env : ChainEnv) : Nat → Block → GoResult (Block × List Cid)
  | fuel, cur =>
    match cur.parents with
    | [] => .ok (cur, [])
    | p :: _ =>
      match fuel with
      | 0 => .timeout
      | fuel' + 1 =>
        match env.get p with
        | none => .err .blockNotFound
        | some raw =>
          match env.decodeBlock raw with
          | .error e => .err e
          | .ok next =>
            match walkBack env fuel' next with
            | .ok (g, tr) => .ok (g, p :: tr)
            | .err e => .err e
            | .panic => .panic
            | .timeout => .timeout

/-- `extractGenesisBlock`: load the archive, fetch and decode the block
at the first declared root, and walk parent links back to the parentless
genesis block.  `ch.Roots[0]` on an empty root list would be a Go index
panic (unreachable: `loadCar` rejects empty root lists). -/
def extractGenesisBlock (env : ChainEnv) (fuel : Nat) (a : Archive) :
    GoResult (Block × List Cid) :=
  match loadCar a with
  | .error e => .err e
  | .ok ch =>
    match ch.roots with
    | [] => .panic
    | r :: _ =>
      match env.get r with
      | none => .err .blockNotFound
      | some raw =>
        match env.decodeBlock raw with
        | .error e => .err e
        | .ok cur => walkBack env fuel cur

/-- Filecoin address (opaque); `address.Undef` is the zero value. -/
abbrev Address : Type := Nat

/-- The undefined address `address.Undef` (the zero value). -/
def addressUndef : Address := 0

/-- The external address parser `address.NewFromString`
(go-address library).  A successful parse never yields `address.Undef`
(`Undef` is the empty address, and the empty string does not parse),
recorded as `ok_ne_undef`. -/
structure AddrEnv : Type where
  newFromString : String → Except GoErr Address
  ok_ne_undef : ∀ s a, newFromString s = .ok a → a ≠ addressUndef

/-- The slice of `config.Config` touched by `setConfigFromOptions`:
sector paths, mining settings, and the network preset pointers
(bootstrap peer list, drand configuration, network parameters —
opaque here). -/
structure Config : Type where
  sectorBaseRootDirPath : String
  sectorBasePreSealedSectorsDirPath : String
  miningMinerAddress : Address
  miningAutoSealIntervalSeconds : Nat
  bootstrap : Nat
  drand : Nat
  networkParams : Nat
  deriving DecidableEq

/-- A named network preset from `fixtures/networks`. -/
structure NetworkPreset : Type where
  bootstrap : Nat
  drand : Nat
  network : Nat
  deriving DecidableEq

/-- The `networks.InteropNet` preset (contents opaque). -/
def interopNet : NetworkPreset := ⟨1, 1, 1⟩

/-- The `networks.TestNet` preset (contents opaque). -/
def testNet : NetworkPreset := ⟨2, 2, 2⟩

/-- The CLI option map as consumed by `setConfigFromOptions`
(`cmdkit.OptMap` restricted to the recognized keys, with the dynamic
type assertions resolved to typed optional fields). -/
structure OptMap : Type where
  sectorDir : Option String
  withMiner : Option String
  autoSealIntervalSeconds : Option Nat
  minerActorAddress : Option String
  presealedSectorDir : Option String
  network : Option String
  deriving DecidableEq

/-- The option map with none of the recognized keys present. -/
def emptyOptMap : OptMap := ⟨none, none, none, none, none, none⟩

/-- Step 1 of `setConfigFromOptions`: `OptionSectorDir`, if present,
overwrites `cfg.SectorBase.RootDirPath`. -/
def applySectorDir (cfg : Config) (o : Option String) : Config :=
  match o with
  | some dir => { cfg with sectorBaseRootDirPath := dir }
  | none => cfg

/-- Step 2 of `setConfigFromOptions`: `WithMiner`, if present, is parsed
by `address.NewFromString` into `cfg.Mining.MinerAddress`; a parse
failure aborts. -/
def applyWithMiner (aenv : AddrEnv) (cfg : Config) (o : Option String) :
    Except GoErr Config :=
  match o with
  | some m =>
    match aenv.newFromString m with
    | .error e => .error e
    | .ok a => .ok { cfg with miningMinerAddress := a }
  | none => .ok cfg

/-- Step 3 of `setConfigFromOptions`: `AutoSealIntervalSeconds`, if
present, overwrites `cfg.Mining.AutoSealIntervalSeconds`. -/
def applyAutoSeal (cfg : Config) (o : Option Nat) : Config :=
  match o with
  | some v => { cfg with miningAutoSealIntervalSeconds := v }
  | none => cfg

/-- Step 4 of `setConfigFromOptions`: `MinerActorAddress`, if present,
is parsed by `address.NewFromString` into `cfg.Mining.MinerAddress`
(overwriting whatever `WithMiner` set); a parse failure aborts. -/
def applyMinerActor (aenv : AddrEnv) (cfg : Config) (o : Option String) :
    Except GoErr Config :=
  match o with
  | some ma =>
    match aenv.newFromString ma with
    | .error e => .error e
    | .ok a => .ok { cfg with miningMinerAddress := a }
  | none => .ok cfg

/-- Step 5 of `setConfigFromOptions`: `OptionPresealedSectorDir`, if
present, requires `cfg.Mining.MinerAddress` to be set (not
`address.Undef`), then overwrites
`cfg.SectorBase.PreSealedSectorsDirPath`. -/
def applyPresealed (cfg : Config) (o : Option String) :
    Except GoErr Config :=
  match o with
  | some dir =>
    if cfg.miningMinerAddress = addressUndef then
      .error .presealedWithoutMiner
    else
      .ok { cfg with sectorBasePreSealedSectorsDirPath := dir }
  | none => .ok cfg

/-- Step 6 of `setConfigFromOptions`: the `Network` name (absent reads
as `""`) selects a devnet preset: `"interop"` and `"testnet"` install
their preset triple; any other non-empty name is an unknown network
error; `""` changes nothing. -/
def applyNetwork (cfg : Config) (netName : String) : Except GoErr Config :=
  if netName = "interop" then
    .ok { cfg with bootstrap := interopNet.bootstrap,
                   drand := interopNet.drand,
                   networkParams := interopNet.network }
  else if netName = "testnet" then
    .ok { cfg with bootstrap := testNet.bootstrap,
                   drand := testNet.drand,
                   networkParams := testNet.network }
  else if netName ≠ "" then .error (.unknownNetwork netName)
  else .ok cfg

/-- `setConfigFromOptions`: apply the recognized options to the config
in source order, aborting on the first error. -/
def setConfigFromOptions (aenv : AddrEnv) (cfg : Config)
    (options : OptMap) : Except GoErr Config :=
  let cfg1 := applySectorDir cfg options.sectorDir
  match applyWithMiner aenv cfg1 options.withMiner with
  | .error e => .error e
  | .ok cfg2 =>
    let cfg3 := applyAutoSeal cfg2 options.autoSealIntervalSeconds
    match applyMinerActor aenv cfg3 options.minerActorAddress with
    | .error e => .error e
    | .ok cfg4 =>
      match applyPresealed cfg4 options.presealedSectorDir with
      | .error e => .error e
      | .ok cfg5 => applyNetwork cfg5 (options.network.getD "")

/-- Result of `url.Parse` on the genesis source string, reduced to what
`openGenesisSource` inspects: whether parsing failed, and on success the
URL's scheme (`""` when the string has no scheme). -/
inductive URLParse : Type where
  | failed : URLParse
  | parsed : String → URLParse
  deriving DecidableEq

/-- A readable byte stream handle (opaque). -/
abbrev Stream : Type := Nat

/-- External collaborators of `openGenesisSource`: the blocking HTTP
fetch of the source string (`none` when the request fails) and the
local file open (`none` when the file cannot be opened). -/
structure SourceEnv : Type where
  httpGet : Option Stream
  osOpen : Option Stream

/-- `openGenesisSource`: dispatch on the parsed URL.  Parse failure is
an invalid source name; scheme `http`/`https` performs the blocking
fetch and returns the response body; any other non-empty scheme is
unsupported; no scheme means a local file path, opened with `os.Open`.
Failures of the external fetch and open are the source-unavailable
errors the Go code propagates. -/
def openGenesisSource (env : SourceEnv) (parse : URLParse) :
    Except GoErr Stream :=
  match parse with
  | .failed => .error .invalidSourceName
  | .parsed scheme =>
    if scheme = "http" ∨ scheme = "https" then
      match env.httpGet with
      | none => .error .sourceUnavailable
      | some body => .ok body
    else if scheme ≠ "" then .error (.unsupportedScheme scheme)
    else
      match env.osOpen with
      | none => .error .sourceUnavailable
      | some file => .ok file

/-- A libp2p private key (opaque). -/
abbrev PrivKey : Type := Nat

/-- Raw file contents (opaque). -/
abbrev FileData : Type := Nat

/-- An open file handle (opaque). -/
abbrev FileH : Type := Nat

/-- One serialized wallet key record (opaque). -/
abbrev KeyRecord : Type := Nat

/-- The wallet export file shape: an object with an ordered `KeyInfo`
list of key records. -/
structure WalletSerializeResult : Type where
  KeyInfo : List KeyRecord
  deriving DecidableEq

/-- A node init directive (`node.InitOpt`): install a peer identity
key, set the default wallet key, or import an additional wallet key. -/
inductive InitOpt : Type where
  | peerKeyOpt : PrivKey → InitOpt
  | defaultKeyOpt : KeyRecord → InitOpt
  | importKeyOpt : KeyRecord → InitOpt
  deriving DecidableEq

/-- External collaborators of `getNodeInitOpts`: `ioutil.ReadFile`,
`crypto.UnmarshalPrivateKey`, `os.Open`, and the JSON decode of the
wallet export file. -/
structure InitEnv : Type where
  readFile : String → Except GoErr FileData
  unmarshalPrivateKey : FileData → Except GoErr PrivKey
  osOpen : String → Except GoErr FileH
  jsonDecodeWallet : FileH → Except GoErr WalletSerializeResult

/-- `getNodeInitOpts`: an empty path means the option was not given.
A given peer key file is read and parsed into a peer-identity directive.
A given wallet key file is opened and JSON-decoded; if `KeyInfo` is
non-empty its first record becomes the default-key directive; then the
Go slice `wir.KeyInfo[1:]` is ranged over for import directives — that
slice expression panics when `len(KeyInfo) < 1` (slice bounds `[1:0]`
out of range). -/
def getNodeInitOpts (env : InitEnv) (peerKeyFile walletKeyFile : String) :
    GoResult (List InitOpt) :=
  match (if peerKeyFile = "" then .ok [] else
    match env.readFile peerKeyFile with
    | .error e => .err e
    | .ok data =>
      match env.unmarshalPrivateKey data with
      | .error e => .err e
      | .ok peerKey => .ok [InitOpt.peerKeyOpt peerKey] :
      GoResult (List InitOpt)) with
  | .err e => .err e
  | .panic => .panic
  | .timeout => .timeout
  | .ok opts =>
    if walletKeyFile = "" then .ok opts else
    match env.osOpen walletKeyFile with
    | .error e => .err e
    | .ok f =>
      match env.jsonDecodeWallet f with
      | .error e => .err e
      | .ok wir =>
        let opts1 := if 0 < wir.KeyInfo.length then
          opts ++ [InitOpt.defaultKeyOpt (wir.KeyInfo.getD 0 0)] else opts
        if wir.KeyInfo.length < 1 then .panic
        else .ok (opts1 ++ (wir.KeyInfo.drop 1).map InitOpt.importKeyOpt)

/-- The steps of `initCmd.Run`, in program order, used to trace which
effects the orchestration performed. -/
inductive RunAction : Type where
  | getRepoPath : RunAction
  | emit : RunAction
  | initFSRepo : RunAction
  | openFSRepo : RunAction
  | loadGenesis : RunAction
  | nodeInitOpts : RunAction
  | setConfig : RunAction
  | setDrand : RunAction
  | replaceConfig : RunAction
  | nodeInit : RunAction
  deriving DecidableEq

/-- External collaborators of `initCmd.Run`, each abstracted to the
outcome it produces: repo path resolution, the response emitter, repo
creation and opening (a successful open yields the repo's stored
config), genesis loading, init-option construction, drand
configuration, config replacement, and node initialization proper. -/
structure RunEnv : Type where
  getRepoPath : Except GoErr String
  emit : Except GoErr Unit
  initFSRepo : Except GoErr Unit
  openFSRepo : Except GoErr Config
  loadGenesisR : Except GoErr Unit
  nodeInitOptsR : Except GoErr (List InitOpt)
  setDrandR : Except GoErr Unit
  replaceConfigR : Except GoErr Unit
  nodeInitR : Except GoErr Unit
  addr : AddrEnv

/-- The body of `initCmd.Run`: the sequential orchestration, returning
the ordered trace of steps performed together with the error it
returned, if any.  A step appears in the trace iff the run reached and
performed it; any failure aborts the remainder. -/
def initCmdRun (env : RunEnv) (options : OptMap) :
    List RunAction × Option GoErr :=
  match env.getRepoPath with
  | .error e => ([.getRepoPath], some e)
  | .ok _ =>
  match env.emit with
  | .error e => ([.getRepoPath, .emit], some e)
  | .ok _ =>
  match env.initFSRepo with
  | .error e => ([.getRepoPath, .emit, .initFSRepo], some e)
  | .ok _ =>
  match env.openFSRepo with
  | .error e => ([.getRepoPath, .emit, .initFSRepo, .openFSRepo], some e)
  | .ok cfg =>
  match env.loadGenesisR with
  | .error e =>
    ([.getRepoPath, .emit, .initFSRepo, .openFSRepo, .loadGenesis], some e)
  | .ok _ =>
  match env.nodeInitOptsR with
  | .error e =>
    ([.getRepoPath, .emit, .initFSRepo, .openFSRepo, .loadGenesis,
      .nodeInitOpts], some e)
  | .ok _ =>
  match setConfigFromOptions env.addr cfg options with
  | .error e =>
    ([.getRepoPath, .emit, .initFSRepo, .openFSRepo, .loadGenesis,
      .nodeInitOpts, .setConfig], some e)
  | .ok _ =>
  match env.setDrandR with
  | .error e =>
    ([.getRepoPath, .emit, .initFSRepo, .openFSRepo, .loadGenesis,
      .nodeInitOpts, .setConfig, .setDrand], some e)
  | .ok _ =>
  match env.replaceConfigR with
  | .error e =>
    ([.getRepoPath, .emit, .initFSRepo, .openFSRepo, .loadGenesis,
      .nodeInitOpts, .setConfig, .setDrand, .replaceConfig], some e)
  | .ok _ =>
  match env.nodeInitR with
  | .error e =>
    ([.getRepoPath, .emit, .initFSRepo, .openFSRepo, .loadGenesis,
      .nodeInitOpts, .setConfig, .setDrand, .replaceConfig, .nodeInit],
     some e)
  | .ok _ =>
    ([.getRepoPath, .emit, .initFSRepo, .openFSRepo, .loadGenesis,
      .nodeInitOpts, .setConfig, .setDrand, .replaceConfig, .nodeInit],
     none)

/-- A concrete linear-chain block family for witnesses: block `i` has
parents `[i - 1]`, except block `0`, which is parentless. -/
def chainBlk (i : Nat) : Block := ⟨if i = 0 then [] else [i - 1]⟩

/-- A concrete chain environment for witnesses: CID `i` stores raw data
`i`, which decodes to `chainBlk i`. -/
def cChainEnv : ChainEnv := ⟨fun c => some c, fun r => .ok (chainBlk r)⟩

/-- C1: if the archive loads and its first declared root resolves and
decodes to a block whose `Parents` is the undefined sentinel,
`extractGenesisBlock` returns exactly that block with an empty hop
trace (no blockstore fetches after the root), for every fuel bound. -/
theorem extractGenesisBlock_root_is_genesis (env : ChainEnv) (fuel : Nat)
    (a : Archive) (r : Cid) (rs : List Cid) (raw : Raw) (b : Block)
    (hm : a.malformed = false) (hr : a.roots = r :: rs)
    (hg : env.get r = some raw) (hd : env.decodeBlock raw = .ok b)
    (hp : b.parents = []) :
    extractGenesisBlock env fuel a = .ok (b, []) := by
  simp [extractGenesisBlock, loadCar, hm, hr, hg, hd, walkBack, hp]

/-- C1 witness: a one-block archive rooted at CID 0, whose block is
parentless, yields that block with zero hops even at fuel 0. -/
theorem extractGenesisBlock_root_is_genesis_witness :
    extractGenesisBlock cChainEnv 0 ⟨false, [0]⟩ = .ok (chainBlk 0, []) :=
  extractGenesisBlock_root_is_genesis cChainEnv 0 ⟨false, [0]⟩ 0 [] 0
    (chainBlk 0) rfl rfl rfl rfl (by decide)

/-- The parent walk along a linear chain `b 0 ← b 1 ← … ` (block
`b (i+1)`'s first parent CID is `c i`) reaches `b 0` from `b k` in
exactly `k` hops, fetching `c (k-1), …, c 0` in that order, given fuel
at least `k`. -/
theorem walkBack_chain (env : ChainEnv) (n : Nat) (c : Nat → Cid)
    (rb : Nat → Raw) (b : Nat → Block) (tl : Nat → List Cid)
    (h0 : (b 0).parents = [])
    (hp : ∀ i, i < n - 1 → (b (i + 1)).parents = c i :: tl i)
    (hg : ∀ i, i < n → env.get (c i) = some (rb i))
    (hd : ∀ i, i < n → env.decodeBlock (rb i) = .ok (b i)) :
    ∀ k, k < n → ∀ fuel, k ≤ fuel →
      walkBack env fuel (b k) = .ok (b 0, ((List.range k).reverse).map c) := by
  intro k
  induction k with
  | zero =>
    intro _ fuel _
    simp [walkBack, h0]
  | succ k ih =>
    intro hkn fuel hkf
    have hpar : (b (k + 1)).parents = c k :: tl k := hp k (by omega)
    cases fuel with
    | zero => omega
    | succ f =>
      have h1 : env.get (c k) = some (rb k) := hg k (by omega)
      have h2 : env.decodeBlock (rb k) = .ok (b k) := hd k (by omega)
      have h3 := ih (by omega) f (by omega)
      simp [walkBack, hpar, h1, h2, h3, List.range_succ]

/-- C2: on an archive rooted at the head of a linear chain of `n`
distinct blocks whose tail block `b 0` is parentless, with every chain
block present in the blockstore, `extractGenesisBlock` returns `b 0`
and its hop trace is exactly the `n - 1` first-parent CIDs followed, in
order, for any fuel of at least `n - 1`. -/
theorem extractGenesisBlock_chain_hops (env : ChainEnv) (n fuel : Nat)
    (c : Nat → Cid) (rb : Nat → Raw) (b : Nat → Block) (tl : Nat → List Cid)
    (rest : List Cid) (a : Archive)
    (hn : 1 ≤ n) (hm : a.malformed = false)
    (hr : a.roots = c (n - 1) :: rest)
    (h0 : (b 0).parents = [])
    (hp : ∀ i, i < n - 1 → (b (i + 1)).parents = c i :: tl i)
    (hg : ∀ i, i < n → env.get (c i) = some (rb i))
    (hd : ∀ i, i < n → env.decodeBlock (rb i) = .ok (b i))
    (_hdist : ∀ i, i < n → ∀ j, j < n → b i = b j → i = j)
    (hfuel : n - 1 ≤ fuel) :
    extractGenesisBlock env fuel a
      = .ok (b 0, ((List.range (n - 1)).reverse).map c)
    ∧ (((List.range (n - 1)).reverse).map c).length = n - 1 := by
  refine ⟨?_, by simp⟩
  have hw := walkBack_chain env n c rb b tl h0 hp hg hd (n - 1)
    (by omega) fuel hfuel
  simp [extractGenesisBlock, loadCar, hm, hr, hg (n - 1) (by omega),
    hd (n - 1) (by omega), hw]

/-- C2 witness: the three-block chain `chainBlk 0 ← chainBlk 1 ←
chainBlk 2` rooted at CID 2 is walked in exactly two hops (fetching
CIDs 1 then 0) down to the parentless block. -/
theorem extractGenesisBlock_chain_hops_witness :
    extractGenesisBlock cChainEnv 5 ⟨false, [2]⟩
      = .ok (chainBlk 0, ((List.range (3 - 1)).reverse).map (fun i => i))
    ∧ ((((List.range (3 - 1)).reverse).map (fun i : Nat => i))).length
        = 3 - 1 :=
  extractGenesisBlock_chain_hops cChainEnv 3 5 (fun i => i) (fun i => i)
    chainBlk (fun _ => []) [] ⟨false, [2]⟩ (by decide) rfl rfl (by decide)
    (by decide) (fun i _ => rfl) (fun i hi => by
      simp only [cChainEnv, chainBlk]) (by decide) (by decide)

/-- C3: an archive that is not malformed but declares an empty root
list makes genesis extraction fail with the missing-root-block error
(no block is ever returned), for every environment and fuel. -/
theorem extractGenesisBlock_empty_roots (env : ChainEnv) (fuel : Nat)
    (a : Archive) (hm : a.malformed = false) (hr : a.roots = []) :
    extractGenesisBlock env fuel a = .err .missingRootBlock := by
  simp [extractGenesisBlock, loadCar, hm, hr]

/-- C3 witness: the well-formed archive with no declared roots yields
the missing-root-block error. -/
theorem extractGenesisBlock_empty_roots_witness :
    extractGenesisBlock cChainEnv 7 ⟨false, []⟩ = .err .missingRootBlock :=
  extractGenesisBlock_empty_roots cChainEnv 7 ⟨false, []⟩ rfl rfl

/-- A concrete address parser for witnesses: every string parses, to
its length plus one (hence never to `address.Undef`). -/
def cAddrEnv : AddrEnv where
  newFromString := fun s => .ok (s.length + 1)
  ok_ne_undef := fun s a h => by
    injection h with h2
    subst h2
    simp [addressUndef]

/-- A concrete starting config for witnesses (the default config). -/
def cfg0 : Config := ⟨"", "", 0, 120, 0, 0, 0⟩

/-- C10: an option map with none of the recognized keys present leaves
the config exactly as it was: `setConfigFromOptions` succeeds and
returns the unchanged config, every field included. -/
theorem setConfigFromOptions_frame (aenv : AddrEnv) (cfg : Config) :
    setConfigFromOptions aenv cfg emptyOptMap = .ok cfg := by
  simp [setConfigFromOptions, emptyOptMap, applySectorDir, applyWithMiner,
    applyAutoSeal, applyMinerActor, applyPresealed, applyNetwork]

/-- C6: when the pre-sealed sector directory option is present, neither
miner-address option is supplied, and the config's miner address is
still undefined, config synthesis fails with the
pre-sealed-dir-without-miner invalid-option error, whatever the other
options are. -/
theorem setConfigFromOptions_presealed_requires_miner (aenv : AddrEnv)
    (cfg : Config) (opts : OptMap) (d : String)
    (hps : opts.presealedSectorDir = some d)
    (hwm : opts.withMiner = none) (hma : opts.minerActorAddress = none)
    (hcfg : cfg.miningMinerAddress = addressUndef) :
    setConfigFromOptions aenv cfg opts = .error .presealedWithoutMiner := by
  obtain ⟨sd, wm, asi, ma, ps, nw⟩ := opts
  simp only at hps hwm hma
  subst hps hwm hma
  cases sd <;> cases asi <;>
    simp [setConfigFromOptions, applySectorDir, applyWithMiner,
      applyAutoSeal, applyMinerActor, applyPresealed, hcfg]

/-- C6 witness: pre-sealed dir given, both miner options absent, other
options present, starting from the default config: the
pre-sealed-dir-without-miner error results. -/
theorem setConfigFromOptions_presealed_requires_miner_witness :
    setConfigFromOptions cAddrEnv cfg0
      ⟨some "sectors", none, some 30, none, some "presealed", some "testnet"⟩
      = .error .presealedWithoutMiner :=
  setConfigFromOptions_presealed_requires_miner cAddrEnv cfg0
    ⟨some "sectors", none, some 30, none, some "presealed", some "testnet"⟩
    "presealed" rfl rfl rfl rfl

/-- C5 counterexample: with `with-miner` and `miner-actor-address` both
supplied and both parsing as valid addresses, `setConfigFromOptions`
does not always succeed: an unrecognized network name in the same
option map makes it fail, contradicting the claim's unconditional
success. -/
theorem setConfigFromOptions_both_miners_can_fail :
    cAddrEnv.newFromString "y" = .ok 2 ∧
    cAddrEnv.newFromString "x" = .ok 2 ∧
    setConfigFromOptions cAddrEnv cfg0
      ⟨none, some "y", none, some "x", none, some "bogus"⟩
      = .error (.unknownNetwork "bogus") := by
  refine ⟨rfl, rfl, ?_⟩
  simp [setConfigFromOptions, cAddrEnv, cfg0, applySectorDir,
    applyWithMiner, applyAutoSeal, applyMinerActor, applyPresealed,
    applyNetwork]

/-- C5 amended: when `with-miner` and `miner-actor-address` are both
supplied and both parse, and the network option (if present) is a
recognized name, config synthesis succeeds and the resulting miner
address is the one parsed from `miner-actor-address` — the later option
wins. -/
theorem setConfigFromOptions_miner_actor_wins (aenv : AddrEnv)
    (cfg : Config) (opts : OptMap) (x y : String) (ax ay : Address)
    (hwm : opts.withMiner = some y)
    (hma : opts.minerActorAddress = some x)
    (hy : aenv.newFromString y = .ok ay)
    (hx : aenv.newFromString x = .ok ax)
    (hnet : opts.network = none ∨ opts.network = some "" ∨
      opts.network = some "interop" ∨ opts.network = some "testnet") :
    ∃ cfg', setConfigFromOptions aenv cfg opts = .ok cfg' ∧
      cfg'.miningMinerAddress = ax := by
  have hax : ax ≠ addressUndef := aenv.ok_ne_undef x ax hx
  obtain ⟨sd, wm, asi, ma, ps, nw⟩ := opts
  simp only at hwm hma hnet
  subst hwm hma
  cases sd <;> cases asi <;> cases ps <;>
    rcases hnet with h | h | h | h <;> subst h <;>
    simp [setConfigFromOptions, applySectorDir, applyWithMiner,
      applyAutoSeal, applyMinerActor, applyPresealed, applyNetwork,
      hy, hx, hax]

/-- C5 amended witness: both miner options supplied and parsing, every
other option also supplied with valid values: synthesis succeeds and
the miner address is the parse of the miner-actor-address option. -/
theorem setConfigFromOptions_miner_actor_wins_witness :
    ∃ cfg', setConfigFromOptions cAddrEnv cfg0
        ⟨some "sectors", some "miner1", some 30, some "actor1",
         some "presealed", some "interop"⟩
      = .ok cfg' ∧ cfg'.miningMinerAddress = 7 :=
  setConfigFromOptions_miner_actor_wins cAddrEnv cfg0
    ⟨some "sectors", some "miner1", some 30, some "actor1",
     some "presealed", some "interop"⟩
    "actor1" "miner1" 7 7 rfl rfl rfl rfl
    (Or.inr (Or.inr (Or.inl rfl)))

/-- C4: the persisted config is replaced exactly when every preceding
step of the `init` run succeeded — in particular config synthesis and
drand configuration both returned success; whenever
`setConfigFromOptions` fails on the option map, `ReplaceConfig` is
never reached. -/
theorem initCmdRun_replaceConfig_iff (env : RunEnv) (options : OptMap) :
    RunAction.replaceConfig ∈ (initCmdRun env options).1 ↔
      ((∃ p, env.getRepoPath = .ok p) ∧ env.emit = .ok () ∧
       env.initFSRepo = .ok () ∧
       ∃ cfg, env.openFSRepo = .ok cfg ∧
         env.loadGenesisR = .ok () ∧
         (∃ l, env.nodeInitOptsR = .ok l) ∧
         (∃ cfg', setConfigFromOptions env.addr cfg options = .ok cfg') ∧
         env.setDrandR = .ok ()) := by
  unfold initCmdRun
  repeat' split
  all_goals simp_all

/-- A concrete source environment for witnesses: the HTTP fetch returns
stream 5 and the local file open returns stream 6. -/
def cSourceEnv : SourceEnv := ⟨some 5, some 6⟩

/-- A concrete source environment for witnesses in which neither the
HTTP fetch nor the local file open succeeds. -/
def cSourceEnvFail : SourceEnv := ⟨none, none⟩

/-- C7: genesis source dispatch is exactly by URL scheme — scheme
`http` or `https` yields the body of the blocking HTTP fetch; any other
non-empty scheme fails as unsupported (for every environment, so no
stream is opened); no scheme means a local file path, whose open
failure is the source-unavailable error and whose open success yields
the file stream. -/
theorem openGenesisSource_dispatch (env : SourceEnv) (scheme : String)
    (body file : Stream) :
    ((scheme = "http" ∨ scheme = "https") → env.httpGet = some body →
      openGenesisSource env (.parsed scheme) = .ok body) ∧
    (scheme ≠ "" → scheme ≠ "http" → scheme ≠ "https" →
      openGenesisSource env (.parsed scheme)
        = .error (.unsupportedScheme scheme)) ∧
    (env.osOpen = none →
      openGenesisSource env (.parsed "") = .error .sourceUnavailable) ∧
    (env.osOpen = some file →
      openGenesisSource env (.parsed "") = .ok file) := by
  refine ⟨?_, ?_, ?_, ?_⟩
  · rintro (h | h) hg <;> subst h <;> simp [openGenesisSource, hg]
  · intro h1 h2 h3
    simp [openGenesisSource, h1, h2, h3]
  · intro h
    simp [openGenesisSource, h]
  · intro h
    simp [openGenesisSource, h]

/-- C7 witness: an `http` URL yields the fetched body; an `ftp` URL is
rejected as an unsupported scheme; a plain path yields the
source-unavailable error when the file cannot be opened and the opened
file stream when it can. -/
theorem openGenesisSource_dispatch_witness :
    openGenesisSource cSourceEnv (.parsed "http") = .ok 5 ∧
    openGenesisSource cSourceEnv (.parsed "ftp")
      = .error (.unsupportedScheme "ftp") ∧
    openGenesisSource cSourceEnvFail (.parsed "")
      = .error .sourceUnavailable ∧
    openGenesisSource cSourceEnv (.parsed "") = .ok 6 :=
  ⟨(openGenesisSource_dispatch cSourceEnv "http" 5 6).1 (Or.inl rfl) rfl,
   (openGenesisSource_dispatch cSourceEnv "ftp" 5 6).2.1
     (by decide) (by decide) (by decide),
   (openGenesisSource_dispatch cSourceEnvFail "" 5 6).2.2.1 rfl,
   (openGenesisSource_dispatch cSourceEnv "" 5 6).2.2.2 rfl⟩

/-- C8: the init directive list is ordered with the peer-identity
directive first (present exactly when a peer key file was given and its
key parsed), followed — when a wallet file with records `[A, B, C]` was
given — by set-default on `A` then imports of `B` and `C` in file
order; an absent wallet file contributes no wallet directives, and with
neither path given the result is the empty list, not an error. -/
theorem getNodeInitOpts_order (env : InitEnv) (pkf wkf : String)
    (d : FileData) (pk : PrivKey) (f : FileH) (A B C : KeyRecord) :
    (pkf ≠ "" → env.readFile pkf = .ok d →
     env.unmarshalPrivateKey d = .ok pk →
     wkf ≠ "" → env.osOpen wkf = .ok f →
     env.jsonDecodeWallet f = .ok ⟨[A, B, C]⟩ →
     getNodeInitOpts env pkf wkf
       = .ok [.peerKeyOpt pk, .defaultKeyOpt A, .importKeyOpt B,
              .importKeyOpt C]) ∧
    (pkf ≠ "" → env.readFile pkf = .ok d →
     env.unmarshalPrivateKey d = .ok pk →
     getNodeInitOpts env pkf "" = .ok [.peerKeyOpt pk]) ∧
    (wkf ≠ "" → env.osOpen wkf = .ok f →
     env.jsonDecodeWallet f = .ok ⟨[A, B, C]⟩ →
     getNodeInitOpts env "" wkf
       = .ok [.defaultKeyOpt A, .importKeyOpt B, .importKeyOpt C]) ∧
    getNodeInitOpts env "" "" = .ok [] := by
  refine ⟨?_, ?_, ?_, ?_⟩
  · intro h1 h2 h3 h4 h5 h6
    simp [getNodeInitOpts, h1, h2, h3, h4, h5, h6]
  · intro h1 h2 h3
    simp [getNodeInitOpts, h1, h2, h3]
  · intro h4 h5 h6
    simp [getNodeInitOpts, h4, h5, h6]
  · simp [getNodeInitOpts]

/-- A concrete init environment for witnesses: file `pk` reads as data
3, private keys unmarshal to data plus one, file `wk` opens as handle
9, and the wallet decode yields records `[4, 5, 6]`. -/
def cInitEnv : InitEnv where
  readFile := fun p => if p = "pk" then .ok 3 else .error .keyImportFailure
  unmarshalPrivateKey := fun d => .ok (d + 1)
  osOpen := fun w => if w = "wk" then .ok 9 else .error .keyImportFailure
  jsonDecodeWallet := fun _ => .ok ⟨[4, 5, 6]⟩

/-- C8 witness: with peer key file `pk` and wallet file `wk` holding
records `[4, 5, 6]`, the four claimed shapes all hold: peer directive
first then set-default and imports in order; peer only; wallet only;
and the empty list with neither path. -/
theorem getNodeInitOpts_order_witness :
    getNodeInitOpts cInitEnv "pk" "wk"
      = .ok [.peerKeyOpt 4, .defaultKeyOpt 4, .importKeyOpt 5,
             .importKeyOpt 6] ∧
    getNodeInitOpts cInitEnv "pk" "" = .ok [.peerKeyOpt 4] ∧
    getNodeInitOpts cInitEnv "" "wk"
      = .ok [.defaultKeyOpt 4, .importKeyOpt 5, .importKeyOpt 6] ∧
    getNodeInitOpts cInitEnv "" "" = .ok [] :=
  ⟨(getNodeInitOpts_order cInitEnv "pk" "wk" 3 4 9 4 5 6).1
     (by decide) (by decide) rfl (by decide) (by decide) rfl,
   (getNodeInitOpts_order cInitEnv "pk" "wk" 3 4 9 4 5 6).2.1
     (by decide) (by decide) rfl,
   (getNodeInitOpts_order cInitEnv "pk" "wk" 3 4 9 4 5 6).2.2.1
     (by decide) (by decide) rfl,
   (getNodeInitOpts_order cInitEnv "pk" "wk" 3 4 9 4 5 6).2.2.2⟩

/-- A concrete init environment whose wallet file decodes to an empty
`KeyInfo` list. -/
def cWalletEmptyEnv : InitEnv where
  readFile := fun _ => .error .keyImportFailure
  unmarshalPrivateKey := fun d => .ok d
  osOpen := fun _ => .ok 0
  jsonDecodeWallet := fun _ => .ok ⟨[]⟩

/-- C9: a wallet key file that opens and decodes to a `KeyInfo` list
with zero entries makes `getNodeInitOpts` panic — the Go slice
expression `wir.KeyInfo[1:]` is out of bounds (`[1:0]`) on the empty
list — rather than return successfully with no wallet directives. -/
theorem getNodeInitOpts_empty_wallet_panics :
    cWalletEmptyEnv.osOpen "wallet.json" = .ok 0 ∧
    cWalletEmptyEnv.jsonDecodeWallet 0 = .ok ⟨[]⟩ ∧
    getNodeInitOpts cWalletEmptyEnv "" "wallet.json" = .panic := by
  refine ⟨rfl, rfl, ?_⟩
  simp [getNodeInitOpts, cWalletEmptyEnv]

end GoFilecoin
